import Mathlib

/-!
Verification development for the Prototipo 2 air-traffic simulator
(`src/prototipos/prototipo2/simulador_prototipo2.py`,
`src/prototipos/prototipo2/generacion_vuelos.py`,
`src/prototipos/comun/modelos.py`).

Times and distances are modelled over the rationals; Python ints over the
integers or the naturals.  Random draws of the seeded generators are
passed in as explicit oracle streams so that every definition is a pure,
executable function of its inputs.
-/

namespace Prototipo2

/-- Embeds the dataclass `ConfigSimulacion` of `simulador_prototipo2.py`.
Float fields become rationals, int fields become naturals (or rationals
when they only ever take part in time arithmetic, as `separar_minutos`
and the phase minima do). -/
structure ConfigSimulacion where
  paso_minutos : ℕ := 1
  T_umbral_espera : ℚ := 45
  seed : Option ℤ := some 1234
  umbral_distancia_tipo_avion : ℚ := 700
  separar_minutos : ℚ := 3
  factor_viento_a_favor : ℚ := 105/100
  factor_viento_en_contra : ℚ := 9/10
  factor_viento_neutro : ℚ := 1
  fuel_factor_a_favor : ℚ := 95/100
  fuel_factor_en_contra : ℚ := 105/100
  fuel_factor_neutro : ℚ := 1
  tiempo_embarque_min : ℚ := 0
  tiempo_turnaround_min : ℚ := 0
  ocupacion_inicial_min_fraccion : ℚ := 5/100
  ocupacion_inicial_max_fraccion : ℚ := 35/100
  exterior_top_n : ℕ := 15
  exterior_ruido_min : ℕ := 1
  exterior_ruido_max : ℕ := 3
  exterior_intervalo_min : ℕ := 90
  exterior_intervalo_max : ℕ := 240
  exterior_estancia_min : ℕ := 15
  exterior_estancia_max : ℕ := 45
  tmin_fase_asc_des_min : ℚ := 5
  tmin_fase_crucero_min : ℚ := 5
  tmin_fase_rodaje_min : ℚ := 3
  tmin_fase_despegue_min : ℚ := 2
  tmin_fase_aproximacion_min : ℚ := 4
  tmin_fase_aterrizaje_min : ℚ := 2
  dist_rodaje_km : ℚ := 4
  frac_dist_despegue : ℚ := 8/100
  frac_dist_aproximacion : ℚ := 1/10
  frac_dist_aterrizaje : ℚ := 5/100
  dist_min_aterrizaje_km : ℚ := 5
  consumo_rodaje_factor : ℚ := 35/100
deriving DecidableEq

/-- Default configuration, mirroring the dataclass default values. -/
def config_base : ConfigSimulacion := {}

/-- Embeds the dataclass `TipoAeronave` of `simulador_prototipo2.py`. -/
structure TipoAeronave where
  nombre : String
  vel_asc_kmh : ℚ
  vel_cru_kmh : ℚ
  vel_des_kmh : ℚ
  nivel_crucero_min_ft : ℤ
  nivel_crucero_max_ft : ℤ
  consumo_asc_l_h : ℚ
  consumo_cru_l_h : ℚ
  consumo_des_l_h : ℚ
  capacidad_combustible_l : ℚ
deriving DecidableEq

/-- Embeds the module constant `TIPO_CORTO_RADIO`. -/
def TIPO_CORTO_RADIO : TipoAeronave :=
  ⟨"corto_radio", 500, 820, 520, 28000, 34000, 3800, 3000, 2100, 20000⟩

/-- Embeds the module constant `TIPO_MEDIO_RADIO`. -/
def TIPO_MEDIO_RADIO : TipoAeronave :=
  ⟨"medio_radio", 560, 900, 580, 33000, 41000, 4400, 3600, 2600, 32000⟩

/-- Embeds `SimulacionPrototipo2._tiempo_fase`: minutes needed to cover a
distance at a given speed, zero for a non-positive speed. -/
def tiempo_fase (distancia_km velocidad_kmh : ℚ) : ℚ :=
  if velocidad_kmh ≤ 0 then 0 else distancia_km / velocidad_kmh * 60

/-- Result of one `_log_evento` call: the occupancy stored for the airport
(which is also the occupancy written into the event row) and the event
name actually logged. -/
structure ResultadoLog where
  ocupacion : ℤ
  evento : String
deriving DecidableEq

/-- Embeds `SimulacionPrototipo2._log_evento` for an airport already known
to `self._ocupacion` (unknown ids return without logging and are modelled
by not calling this function).  If the delta is positive and the airport
is already full, the applied delta is forced to zero and the event name
gets the suffix `_cap_llena`; the stored occupancy is clamped into
`[0, capacidad]`. -/
def log_evento (capacidad ocup_prev delta : ℤ) (evento : String) : ResultadoLog :=
  if 0 < delta ∧ capacidad ≤ ocup_prev then
    ⟨max 0 (min capacidad (ocup_prev + 0)), evento ++ "_cap_llena"⟩
  else
    ⟨max 0 (min capacidad (ocup_prev + delta)), evento⟩

/-- Embeds the clamp of `SimulacionPrototipo2._inicializar_ocupacion`:
whatever occupancy is proposed for an airport (the integer override or the
rounded random fraction of the capacity), the stored initial value is
`max(0, min(ocup, capacidad))`. -/
def inicializar_ocupacion (capacidad ocup_propuesta : ℤ) : ℤ :=
  max 0 (min ocup_propuesta capacidad)

/-- Occupancy trace of one airport: starting occupancy plus the list of
`_log_evento` calls (delta and event name), producing the logged rows in
order. -/
def ocupacion_trace (capacidad : ℤ) : ℤ → List (ℤ × String) → List ResultadoLog
  | _, [] => []
  | ocup, (delta, ev) :: resto =>
      let r := log_evento capacidad ocup delta ev
      r :: ocupacion_trace capacidad r.ocupacion resto

/-- Embeds `SimulacionPrototipo2._esperar_pista`: given the timestamp of
the previous runway event at the airport and the current virtual time,
the process resumes (and the runway event is stamped) at
`max(ahora, ultimo + separar_minutos)`; that instant also becomes the new
`_ultimo_evento_pista` entry. -/
def esperar_pista (separar_minutos ultimo ahora : ℚ) : ℚ :=
  if ahora < ultimo + separar_minutos then ultimo + separar_minutos else ahora

/-- Stamp of `_ultimo_evento_pista` visible at instant `c`: the initial
value (the `-1e9` default of the dictionary lookup) or the latest write
already performed at or before `c`.  Each write stores its own instant as
the value and writes happen in nondecreasing time order, so the visible
stamp is the largest write time not exceeding `c` (a write occurring at
exactly `c` counts as visible, fixing the same-instant tiebreak). -/
def sello_visible (inicial : ℚ) (escritos : List ℚ) (c : ℚ) : ℚ :=
  (escritos.filter (fun r => r ≤ c)).foldl max inicial

/-- Concurrent execution of the `_esperar_pista` calls of one airport,
the call instants listed in chronological order: each call reads the
stamp visible at its own call instant (`ultimo` is captured before the
yield and never rechecked after resuming), resumes at
`max(call, stamp + separar_minutos)`, and only at that resume instant
writes it into the dictionary.  Waiters whose sleep intervals overlap
therefore read the same stale stamp.  Returns the runway-event (resume)
instants; `escritos` accumulates the writes already scheduled. -/
def pista_concurrente (sep inicial : ℚ) : List ℚ → List ℚ → List ℚ
  | _, [] => []
  | escritos, c :: resto =>
      let r := esperar_pista sep (sello_visible inicial escritos c) c
      r :: pista_concurrente sep inicial (r :: escritos) resto

/-- Absence of overlapping runway waits: every call occurs no earlier
than the resume instant of the previous call, so no two processes are
inside `_esperar_pista` for the same airport at the same time. -/
def sin_solape (sep inicial : ℚ) : List ℚ → List ℚ → Bool
  | _, [] => true
  | escritos, c :: resto =>
      let r := esperar_pista sep (sello_visible inicial escritos c) c
      (match resto with
        | [] => true
        | c2 :: _ => decide (r ≤ c2)) &&
      sin_solape sep inicial (r :: escritos) resto

/-- Embeds `SimulacionPrototipo2._esperar_separacion_ruta` (same waiting
scheme as `_esperar_pista`, keyed by the unordered route). -/
def esperar_separacion_ruta (separar_minutos ultimo ahora : ℚ) : ℚ :=
  if ahora < ultimo + separar_minutos then ultimo + separar_minutos else ahora

/-- Embeds line 682 of `simulador_prototipo2.py`:
`retraso_total = max(0.0, llegada_real - salida_prog) - duracion_minutos`. -/
def retraso_total (llegada_real salida_prog duracion_minutos : ℚ) : ℚ :=
  max 0 (llegada_real - salida_prog) - duracion_minutos

/-- Embeds the `tiempo_total_min` field of the flight record:
`max(0.0, llegada_real - salida_prog)`. -/
def tiempo_total (llegada_real salida_prog : ℚ) : ℚ :=
  max 0 (llegada_real - salida_prog)

/-- Phase distance split computed by
`SimulacionPrototipo2._segmentos_distancia`. -/
structure Segmentos where
  despegue : ℚ
  crucero : ℚ
  aproximacion : ℚ
  aterrizaje : ℚ
deriving DecidableEq

/-- Embeds `SimulacionPrototipo2._segmentos_distancia`. -/
def segmentos_distancia (cfg : ConfigSimulacion) (dist_km : ℚ) : Segmentos :=
  let dist_despegue := max 1 (dist_km * cfg.frac_dist_despegue)
  let dist_aprox := max 1 (dist_km * cfg.frac_dist_aproximacion)
  let dist_aterr := max cfg.dist_min_aterrizaje_km (dist_km * cfg.frac_dist_aterrizaje)
  let resto := dist_km - (dist_despegue + dist_aprox + dist_aterr)
  if resto < 0 then
    let total_base := dist_despegue + dist_aprox + dist_aterr
    if 0 < total_base then
      let escala := dist_km / total_base
      ⟨dist_despegue * escala, 0, dist_aprox * escala, dist_aterr * escala⟩
    else
      ⟨dist_despegue, 0, dist_aprox, dist_aterr⟩
  else
    ⟨dist_despegue, max resto 0, dist_aprox, dist_aterr⟩

/-- Timeline of a single flight with destination EXTERIOR running alone in
the simulation (origin resource free, first runway event at the origin,
first event on its route), embedding the phase sequence of
`SimulacionPrototipo2._proceso_vuelo` up to the flight record.  The speed
arguments are the sampled phase speeds already multiplied by their wind
factors; `-1000000000` is the `-1e9` default of the separation
dictionaries.  Returns the real arrival minute and the recorded
`retraso_total_min`. -/
def vuelo_exterior_aislado (cfg : ConfigSimulacion) (salida_prog dist_plan_km : ℚ)
    (vel_rodaje vel_despegue vel_crucero vel_aprox : ℚ) (duracion_minutos : ℚ) : ℚ × ℚ :=
  let t_rodaje := max cfg.tmin_fase_rodaje_min (tiempo_fase cfg.dist_rodaje_km vel_rodaje)
  let t1 := salida_prog + t_rodaje
  let t2 := esperar_pista cfg.separar_minutos (-1000000000) t1
  let t3 := t2 + (if 0 < cfg.tiempo_embarque_min then cfg.tiempo_embarque_min else 0)
  let seg := segmentos_distancia cfg dist_plan_km
  let t_despegue := max cfg.tmin_fase_despegue_min (tiempo_fase seg.despegue vel_despegue)
  let t4 := t3 + t_despegue
  let t_crucero := max cfg.tmin_fase_crucero_min (tiempo_fase seg.crucero vel_crucero)
  let t5 := t4 + t_crucero
  let t_aprox := max cfg.tmin_fase_aproximacion_min (tiempo_fase seg.aproximacion vel_aprox)
  let t6 := t5 + t_aprox
  let llegada := esperar_separacion_ruta cfg.separar_minutos (-1000000000) t6
  (llegada, retraso_total llegada salida_prog duracion_minutos)

/-- Tail of `_proceso_vuelo` (lines 617 to 682) for a flight with
`es_exterior = True`: after the approach phase the process still executes
`_esperar_separacion_ruta`, then takes the `else` branch that skips the
destination resource, logs no landing event, forces
`destino_final = "EXTERIOR"` and `espera_cola = 0`, and stamps the real
arrival. -/
structure TramoFinal where
  llegada : ℚ
  pide_recurso_destino : Bool
  emite_aterrizaje : Bool
  destino_final : String
  espera_cola : ℚ
deriving DecidableEq

/-- Embeds the EXTERIOR branch of the final stretch of
`SimulacionPrototipo2._proceso_vuelo`: `fin_aproximacion` is the virtual
time at which the approach phase ended and `ruta_ultimo` the previous
event on the unordered route of this flight. -/
def tramo_final_exterior (cfg : ConfigSimulacion) (fin_aproximacion ruta_ultimo : ℚ) :
    TramoFinal :=
  let t_sep := esperar_separacion_ruta cfg.separar_minutos ruta_ultimo fin_aproximacion
  ⟨t_sep, false, false, "EXTERIOR", 0⟩

/-- Plan row as consumed by `SimulacionPrototipo2.run` (the fields read by
the validation step). -/
structure FilaPlan where
  id_vuelo : String
  origen : String
  destino : String
  minuto_salida : ℤ
  minuto_llegada_programada : ℤ
deriving DecidableEq

/-- Embeds `PlanDeVueloBase.__post_init__` of `prototipos/comun/modelos.py`:
raises when origin equals destination or when the scheduled departure is
not strictly before the scheduled arrival. -/
def valida_plan_de_vuelo (f : FilaPlan) : Except String Unit :=
  if f.origen = f.destino then
    .error ("El origen y destino del vuelo no pueden coincidir.")
  else if f.minuto_llegada_programada ≤ f.minuto_salida then
    .error ("La hora de salida debe ser anterior a la llegada programada.")
  else .ok ()

/-- Embeds the ingestion loop of `SimulacionPrototipo2.run` (lines 728 to
742): each row is validated through `PlanDeVueloBase`, but the whole
validation sits in a `try/except` whose handler is `pass`, and
`env.process(self._proceso_vuelo(vuelo))` runs afterwards for every row.
The returned list holds the rows for which a flight process was created;
an `Except.error` would model an exception escaping to the caller. -/
def run_crear_procesos (filas : List FilaPlan) : Except String (List FilaPlan) :=
  .ok (filas.map (fun f =>
    match valida_plan_de_vuelo f with
    | .ok _ => f
    | .error _ => f))

/-- State of a simpy resource as observed by the diversion planner:
`count` leases currently held out of `capacity`. -/
structure EstadoRecurso where
  count : ℕ
  capacity : ℕ
deriving DecidableEq

/-- Candidate filter of the scan loop in
`SimulacionPrototipo2._redirigir_si_conviene`: the candidate is skipped
when it equals the scheduled destination or the current origin, has no
resource, or has no free capacity. -/
def elegible (destino_original origen_actual : String)
    (recursos : String → Option EstadoRecurso) (c : String) : Bool :=
  if c = destino_original ∨ c = origen_actual then false
  else
    match recursos c with
    | none => false
    | some r => decide (r.count < r.capacity)

/-- Scan loop of `_redirigir_si_conviene` (lines 421 to 441): walks the
graph nodes keeping the eligible candidate with the strictly smallest
shortest-path distance from the scheduled destination; `spd a b = none`
models `nx.NetworkXNoPath`. -/
def busca_candidato (destino_original origen_actual : String)
    (recursos : String → Option EstadoRecurso)
    (spd : String → String → Option ℚ) :
    List String → Option (String × ℚ) → Option (String × ℚ)
  | [], mejor => mejor
  | c :: resto, mejor =>
      let mejor' :=
        if elegible destino_original origen_actual recursos c then
          match spd destino_original c with
          | none => mejor
          | some dist_dest =>
              match mejor with
              | none => some (c, dist_dest)
              | some p => if dist_dest < p.2 then some (c, dist_dest) else mejor
        else mejor
      busca_candidato destino_original origen_actual recursos spd resto mejor'

/-- Embeds `SimulacionPrototipo2._redirigir_si_conviene` (lines 405 to
461).  The `Except.error` value models the `UnboundLocalError` raised at
line 453 when the chosen candidate has no path from the current origin:
the `except nx.NetworkXNoPath` handler assigns only `tiempo_extra`, and
the following line reads the never-assigned local `dist_total`. -/
def redirigir_si_conviene (nodos : List String)
    (recursos : String → Option EstadoRecurso)
    (spd : String → String → Option ℚ)
    (destino_original : String) (tiempo_espera : ℚ)
    (origen_actual : String) (dist_plan_km : ℚ) :
    Except String (String × ℚ × Bool × ℚ) :=
  match busca_candidato destino_original origen_actual recursos spd nodos none with
  | none => .ok (destino_original, tiempo_espera, false, dist_plan_km)
  | some p =>
      match spd origen_actual p.1 with
      | none => .error ("UnboundLocalError: dist_total")
      | some dist_total =>
          let tiempo_extra0 := tiempo_fase dist_total TIPO_MEDIO_RADIO.vel_cru_kmh
          let tiempo_extra :=
            if dist_plan_km * (13/10) < dist_total then tiempo_espera + 1 else tiempo_extra0
          if tiempo_extra < tiempo_espera then .ok (p.1, tiempo_extra, true, dist_total)
          else .ok (destino_original, tiempo_espera, false, dist_plan_km)

/-- Specification of the diversion decision, written from the words of the
spec (section 4.6): candidates are distinct from the scheduled destination
and the origin and have free capacity; the selected candidate minimises
the km-weighted shortest-path distance from the scheduled destination; the
diversion is accepted only if the estimated flight time to the candidate
is strictly below the projected wait and the origin-to-candidate distance
is at most 1.3 times the planned distance; otherwise the scheduled
destination is kept. -/
def EspecDesvio (nodos : List String)
    (recursos : String → Option EstadoRecurso)
    (spd : String → String → Option ℚ)
    (destino_original : String) (tiempo_espera : ℚ)
    (origen_actual : String) (dist_plan_km : ℚ)
    (resultado : String × ℚ × Bool × ℚ) : Prop :=
  (resultado.2.2.1 = true →
    resultado.1 ≠ destino_original ∧ resultado.1 ≠ origen_actual ∧
    elegible destino_original origen_actual recursos resultado.1 = true ∧
    (∃ dd, spd destino_original resultado.1 = some dd ∧
      ∀ c ∈ nodos, elegible destino_original origen_actual recursos c = true →
        ∀ dc, spd destino_original c = some dc → dd ≤ dc) ∧
    (∃ dt, spd origen_actual resultado.1 = some dt ∧ resultado.2.2.2 = dt ∧
      dt ≤ dist_plan_km * (13/10) ∧
      resultado.2.1 = tiempo_fase dt TIPO_MEDIO_RADIO.vel_cru_kmh ∧
      resultado.2.1 < tiempo_espera)) ∧
  (resultado.2.2.1 = false →
    resultado.1 = destino_original ∧ resultado.2.1 = tiempo_espera ∧
    resultado.2.2.2 = dist_plan_km)

/-- Fixture for the concrete diversion scenario: one candidate airport C
with free capacity. -/
def recursos_test : String → Option EstadoRecurso :=
  fun s => if s = "C" then some ⟨0, 5⟩ else none

/-- Fixture for the concrete diversion scenario: C is at distance 100
from the scheduled destination D and at distance 150 from the current
origin O. -/
def spd_test : String → String → Option ℚ :=
  fun a b =>
    if a = "D" ∧ b = "C" then some 100
    else if a = "O" ∧ b = "C" then some 150
    else none

/-- Embeds the dataclass `ConfigVuelos` of `generacion_vuelos.py` (the
`seed` and `pesos_manual` fields are threaded separately as oracle
streams and an optional override function). -/
structure ConfigVuelos where
  total_vuelos_diarios : ℕ
  hora_inicio : ℕ := 6
  hora_fin : ℕ := 22
  concentracion_horas_punta : Bool := true
  velocidad_crucero_kmh : ℚ := 800
  umbral_distancia_tipo_avion : ℚ := 700
  prob_destino_exterior : ℚ := 5/100
  dist_exterior_km : ℚ := 1800
deriving DecidableEq

/-- Edge of the route graph with the attributes read by the generator. -/
structure Arista where
  u : String
  v : String
  w_ij : ℚ
  dist_km : ℚ
deriving DecidableEq

/-- Embeds the factor lookup
`pesos_manual.get((u, v)) or pesos_manual.get((v, u)) or 1.0` of
`_resolver_pesos_rutas`, with the Python `or` treating `0.0` and `None`
as falsy. -/
def factor_manual (pm : Option (String → String → Option ℚ)) (u v : String) : ℚ :=
  match pm with
  | none => 1
  | some g =>
      match g u v with
      | some x =>
          if x = 0 then
            match g v u with
            | some y => if y = 0 then 1 else y
            | none => 1
          else x
      | none =>
          match g v u with
          | some y => if y = 0 then 1 else y
          | none => 1

/-- Embeds `_resolver_pesos_rutas` of `generacion_vuelos.py`: keeps the
edges with positive adjusted weight paired with their weight renormalised
to sum one, and raises when no edge qualifies. -/
def resolver_pesos_rutas (aristas : List Arista)
    (pm : Option (String → String → Option ℚ)) :
    Except String (List (Arista × ℚ)) :=
  let con_peso := aristas.filterMap (fun a =>
    let w := a.w_ij * factor_manual pm a.u a.v
    if 0 < w then some (a, w) else none)
  if con_peso.isEmpty then
    .error ("El grafo no tiene aristas con peso positivo (w_ij).")
  else
    let total := (con_peso.map (fun p => p.2)).sum
    .ok (con_peso.map (fun p => (p.1, p.2 / total)))

/-- Model of `rng.randint(a, b)` (both bounds inclusive): the abstract
draw index `r` is mapped into the interval, so any implementation value
is representable and every produced value lies in `[a, b]`. -/
def randint_model (a b : ℤ) (r : ℕ) : ℤ :=
  a + (r : ℤ) % (b - a + 1)

/-- Natural-number variant of `randint_model` for the noise process. -/
def randint_nat (a b r : ℕ) : ℕ :=
  a + r % (b - a + 1)

/-- Oracle streams for `_generar_minutos_salida`: the peak coin
(`rng.random() < p_peak`), the peak-window choice (`rng.choice([8, 18])`,
`true` picking 08:00), the integer part of the Gaussian draw
`int(rng.normalvariate(mu, 60))` (unconstrained, indexed by row and mu)
and the uniform draw index for `rng.randint`. -/
structure SorteosMinutos where
  moneda_punta : ℕ → Bool
  elige_manana : ℕ → Bool
  gauss : ℕ → ℤ → ℤ
  unif : ℕ → ℕ

/-- Embeds `_generar_minutos_salida` of `generacion_vuelos.py`.  The
error value models the `ValueError` raised when the window is empty; in
the peak-concentration branch each minute is clamped into
`[inicio_min, fin_min - 1]`, in the uniform branch `rng.randint` already
stays inside the window. -/
def generar_minutos_salida (cantidad inicio fin : ℕ) (concentrar : Bool)
    (d : SorteosMinutos) : Except String (List ℤ) :=
  let inicio_min : ℤ := (inicio : ℤ) * 60
  let fin_min : ℤ := (fin : ℤ) * 60
  if fin_min ≤ inicio_min then
    .error ("La hora_fin debe ser mayor que hora_inicio.")
  else if concentrar then
    .ok ((List.range cantidad).map (fun i =>
      let minuto :=
        if d.moneda_punta i then
          let hora_centro : ℤ := if d.elige_manana i then 8 else 18
          d.gauss i (hora_centro * 60)
        else randint_model inicio_min (fin_min - 1) (d.unif i)
      min (max minuto inicio_min) (fin_min - 1)))
  else
    .ok ((List.range cantidad).map (fun i =>
      randint_model inicio_min (fin_min - 1) (d.unif i)))

/-- Embeds `_duracion_minutos` of `generacion_vuelos.py`. -/
def duracion_minutos_fn (dist_km velocidad_kmh : ℚ) : ℤ :=
  if velocidad_kmh ≤ 0 then 0
  else max 1 (Int.ceil (dist_km / velocidad_kmh * 60))

/-- Per-row oracle streams of the generator loop: the direction coin
(`rng.random() < 0.5`) and the exterior coin (`rng.random() < p_ext`,
with `p_ext` the traffic-weighted exterior probability), both indexed by
the running row counter `idx_global`. -/
structure SorteosPlan where
  direccion : ℕ → Bool
  exterior : ℕ → Bool

/-- Row emitted by `generar_plan_diario`. -/
structure FilaGenerada where
  id_vuelo : String
  origen : String
  destino : String
  es_exterior : Bool
  minuto_salida : ℤ
  duracion_minutos : ℤ
  minuto_llegada_programada : ℤ
  distancia_km : ℚ
  w_ruta : ℚ
deriving DecidableEq

/-- Rows generated for one edge: `n` rows consume the next `n` scheduled
departure minutes, drawing direction and exterior rerouting per row
(the id formatting `%05d` is rendered with `toString`). -/
def filas_de_arista (cfg : ConfigVuelos) (s : SorteosPlan) (a : Arista) (w : ℚ) :
    ℕ → List ℤ → ℕ → List FilaGenerada
  | 0, _, _ => []
  | _ + 1, [], _ => []
  | n + 1, salida :: hs, idx =>
      let origen := if s.direccion idx then a.u else a.v
      let destino := if s.direccion idx then a.v else a.u
      let es_ext := s.exterior idx
      let destino_plan := if es_ext then "EXTERIOR" else destino
      let dist_flight := if es_ext then cfg.dist_exterior_km else a.dist_km
      let dur := duracion_minutos_fn dist_flight cfg.velocidad_crucero_kmh
      ⟨origen ++ destino_plan ++ toString (idx + 1), origen, destino_plan, es_ext,
        salida, dur, salida + dur, dist_flight, if es_ext then 0 else a.w_ij⟩ ::
      filas_de_arista cfg s a w n hs (idx + 1)

/-- Generator loop over the `zip(aristas, vuelos_por_ruta)` pairs,
threading the global row counter and consuming the scheduled minutes. -/
def filas_por_aristas (cfg : ConfigVuelos) (s : SorteosPlan) :
    List (Arista × ℚ) → List ℕ → List ℤ → ℕ → List FilaGenerada
  | [], _, _, _ => []
  | _ :: _, [], _, _ => []
  | (a, w) :: ars, n :: ns, horarios, idx =>
      filas_de_arista cfg s a w n horarios idx ++
      filas_por_aristas cfg s ars ns (horarios.drop n) (idx + n)

/-- Order used by the final `df.sort_values(by="minuto_salida")`. -/
def le_salida (f g : FilaGenerada) : Prop :=
  f.minuto_salida ≤ g.minuto_salida

instance : DecidableRel le_salida := fun f g =>
  inferInstanceAs (Decidable (f.minuto_salida ≤ g.minuto_salida))

instance : IsTotal FilaGenerada le_salida :=
  ⟨fun f g => le_total f.minuto_salida g.minuto_salida⟩

instance : IsTrans FilaGenerada le_salida :=
  ⟨fun _ _ _ h h' => le_trans h h'⟩

/-- Embeds `generar_plan_diario` of `generacion_vuelos.py`.  The
multinomial draw `vuelos_por_ruta` is passed in as the abstract count
vector `counts` (its defining property, one draw summing to the daily
total, becomes a hypothesis of the theorems).  The final error value
models the `KeyError` of `df.sort_values(by="minuto_salida")` when the
produced row list is empty: `pd.DataFrame([])` has no columns. -/
def generar_plan_diario (cfg : ConfigVuelos)
    (pm : Option (String → String → Option ℚ)) (counts : List ℕ)
    (dMin : SorteosMinutos) (s : SorteosPlan) (aristas : List Arista) :
    Except String (List FilaGenerada) :=
  match resolver_pesos_rutas aristas pm with
  | .error e => .error e
  | .ok con_peso =>
      match generar_minutos_salida cfg.total_vuelos_diarios cfg.hora_inicio
          cfg.hora_fin cfg.concentracion_horas_punta dMin with
      | .error e => .error e
      | .ok horarios =>
          let plan := filas_por_aristas cfg s con_peso counts horarios 0
          if plan.isEmpty then .error ("KeyError: minuto_salida")
          else .ok (plan.insertionSort le_salida)

/-- Pending event of the simpy event queue: virtual time, the strictly
monotone scheduling sequence number used as tiebreaker, and an opaque
payload standing for the process callback. -/
structure EventoCola where
  tiempo : ℚ
  secuencia : ℕ
  carga : String
deriving DecidableEq

/-- Priority of the event heap: earlier virtual time first, and the
scheduling sequence number breaks ties at the same instant. -/
def clave_antes (e f : EventoCola) : Prop :=
  e.tiempo < f.tiempo ∨ (e.tiempo = f.tiempo ∧ e.secuencia ≤ f.secuencia)

/-- One dispatch step of the event loop: a pending event of minimal key is
removed from the queue and run. -/
inductive PasoDespacho : List EventoCola → EventoCola → List EventoCola → Prop where
  | mk {q : List EventoCola} {e : EventoCola} {resto : List EventoCola}
      (hmem : e ∈ q) (hmin : ∀ f ∈ q, clave_antes e f)
      (hresto : resto = q.erase e) : PasoDespacho q e resto

/-- Complete dispatch trace of the event loop from an initial queue:
the sequence of events in the order they were run. -/
inductive TrazaDespacho : List EventoCola → List EventoCola → Prop where
  | nil : TrazaDespacho [] []
  | cons {q : List EventoCola} {e : EventoCola} {resto tr : List EventoCola}
      (hpaso : PasoDespacho q e resto) (htr : TrazaDespacho resto tr) :
      TrazaDespacho q (e :: tr)

/-- Embeds `_proceso_ruido_exterior` occupancy pulses: `extra` repeated
`_log_evento` calls with the same delta and timestamp, threading the
occupancy. -/
def eventos_repetidos (capacidad : ℤ) (t : ℚ) (nombre : String) (delta : ℤ) :
    ℕ → ℤ → List (ℚ × ResultadoLog) × ℤ
  | 0, ocup => ([], ocup)
  | n + 1, ocup =>
      let r := log_evento capacidad ocup delta nombre
      let resto := eventos_repetidos capacidad t nombre delta n r.ocupacion
      ((t, r) :: resto.1, resto.2)

/-- Oracle streams for the noise process draws (`rng.randint` indices per
loop iteration). -/
structure SorteosRuido where
  intervalo : ℕ → ℕ
  extra : ℕ → ℕ
  estancia : ℕ → ℕ

/-- Embeds `SimulacionPrototipo2._proceso_ruido_exterior` for one hub
airport, unrolled for a given number of loop iterations (the `while True`
body): sleep a uniform interval, exit once the horizon is reached,
otherwise log `extra` arrivals (`ext_llegada`, delta `+1`), wait the stay
duration, and log the matching departures (`ext_salida`, delta `-1`). -/
def proceso_ruido_exterior (cfg : ConfigSimulacion) (horizonte : ℚ) (capacidad : ℤ)
    (d : SorteosRuido) : ℕ → ℚ → ℤ → ℕ → List (ℚ × ResultadoLog)
  | 0, _, _, _ => []
  | n + 1, ahora, ocup, k =>
      let intervalo := randint_nat cfg.exterior_intervalo_min cfg.exterior_intervalo_max
        (d.intervalo k)
      let t := ahora + (intervalo : ℚ)
      if horizonte ≤ t then []
      else
        let extra := randint_nat cfg.exterior_ruido_min cfg.exterior_ruido_max (d.extra k)
        let dur := randint_nat cfg.exterior_estancia_min cfg.exterior_estancia_max
          (d.estancia k)
        let llegadas := eventos_repetidos capacidad t "ext_llegada" 1 extra ocup
        let t2 := t + (dur : ℚ)
        let salidas := eventos_repetidos capacidad t2 "ext_salida" (-1) extra llegadas.2
        llegadas.1 ++ salidas.1 ++
          proceso_ruido_exterior cfg horizonte capacidad d n t2 salidas.2 (k + 1)

/-- Maximum of a list of rationals, as Python `max` over a series. -/
def maximo : List ℚ → Option ℚ
  | [] => none
  | x :: xs =>
      match maximo xs with
      | none => some x
      | some m => some (max x m)

/-- Embeds the horizon computation of `SimulacionPrototipo2.__init__`:
the maximum scheduled arrival of the plan plus 60, falling back to 1440
when the plan has no arrival column so the lookup raises (the empty
DataFrame without columns; the float-NaN corner of an empty typed column
is not representable here and is noted in the results). -/
def horizonte_min (llegadas_programadas : List ℚ) : ℚ :=
  match maximo llegadas_programadas with
  | none => 24 * 60
  | some m => m + 60

/-- Full occupancy-event stream of a run over a single-airport network
with an empty flight plan: the initial occupancy event (logged when the
clamped initial occupancy is positive, as in `_inicializar_ocupacion`)
followed by the events of the external-noise process of that hub, which
`__init__` always schedules.  `registros_de_run` below models the flight
records: `run` creates one `_proceso_vuelo` per plan row and each appends
exactly one record. -/
def eventos_run_plan_vacio (cfg : ConfigSimulacion) (capacidad ocup_propuesta : ℤ)
    (d : SorteosRuido) (iteraciones : ℕ) : List (ℚ × ResultadoLog) :=
  let ocup0 := inicializar_ocupacion capacidad ocup_propuesta
  let iniciales := if 0 < ocup0 then [((0 : ℚ), (⟨ocup0, "ocupacion_inicial"⟩ : ResultadoLog))] else []
  iniciales ++ proceso_ruido_exterior cfg (horizonte_min []) capacidad d iteraciones 0 ocup0 0

/-- Flight records produced by `SimulacionPrototipo2.run`: one per plan
row (each `_proceso_vuelo` appends exactly one registro), so the record
stream of a run is indexed by the ingested rows. -/
def registros_de_run (filas : List FilaPlan) : List FilaPlan :=
  filas

theorem log_evento_rango (capacidad ocup delta : ℤ) (ev : String)
    (hcap : 0 ≤ capacidad) :
    0 ≤ (log_evento capacidad ocup delta ev).ocupacion ∧
    (log_evento capacidad ocup delta ev).ocupacion ≤ capacidad := by
  unfold log_evento
  split <;> exact ⟨le_max_left _ _, max_le hcap (min_le_left _ _)⟩

theorem ocupacion_trace_rango (capacidad : ℤ) (hcap : 0 ≤ capacidad) :
    ∀ (deltas : List (ℤ × String)) (ocup : ℤ),
      ∀ r ∈ ocupacion_trace capacidad ocup deltas,
        0 ≤ r.ocupacion ∧ r.ocupacion ≤ capacidad := by
  intro deltas
  induction deltas with
  | nil => intro ocup r hr; simp [ocupacion_trace] at hr
  | cons p resto ih =>
      intro ocup r hr
      obtain ⟨delta, ev⟩ := p
      simp only [ocupacion_trace, List.mem_cons] at hr
      rcases hr with hr | hr
      · subst hr; exact log_evento_rango capacidad ocup delta ev hcap
      · exact ih _ r hr

/-- Claim C1: for every airport and at every virtual instant, the logged
occupancy satisfies `0 ≤ ocupacion ≤ capacidad`: the initial assignment of
`_inicializar_ocupacion` is clamped into the range, every occupancy value
logged along a trace of `_log_evento` calls stays in the range, and an
occupancy-increasing event (external-noise arrivals included) at an
airport that is already full leaves the occupancy unchanged and is logged
with the `_cap_llena` capacity-refused suffix instead of incrementing. -/
theorem ocupacion_siempre_acotada (capacidad ocup_propuesta : ℤ)
    (deltas : List (ℤ × String)) (hcap : 1 ≤ capacidad) :
    (0 ≤ inicializar_ocupacion capacidad ocup_propuesta ∧
      inicializar_ocupacion capacidad ocup_propuesta ≤ capacidad) ∧
    (∀ r ∈ ocupacion_trace capacidad
        (inicializar_ocupacion capacidad ocup_propuesta) deltas,
      0 ≤ r.ocupacion ∧ r.ocupacion ≤ capacidad) ∧
    (∀ (ocup delta : ℤ) (ev : String), 0 ≤ ocup → ocup ≤ capacidad →
      capacidad ≤ ocup → 0 < delta →
      (log_evento capacidad ocup delta ev).ocupacion = ocup ∧
      (log_evento capacidad ocup delta ev).evento = ev ++ "_cap_llena") := by
  have hcap0 : (0:ℤ) ≤ capacidad := le_trans zero_le_one hcap
  refine ⟨⟨le_max_left _ _, max_le hcap0 (min_le_right _ _)⟩, ?_, ?_⟩
  · exact ocupacion_trace_rango capacidad hcap0 deltas _
  · intro ocup delta ev _ hle hge hdelta
    have heq : ocup = capacidad := le_antisymm hle hge
    unfold log_evento
    rw [if_pos ⟨hdelta, hge⟩]
    constructor
    · show max 0 (min capacidad (ocup + 0)) = ocup
      rw [add_zero, heq, min_self]
      exact max_eq_right hcap0
    · rfl

/-- Concrete instantiation of `ocupacion_siempre_acotada`: capacity 2,
proposed initial occupancy 5 (clamped), and an arrival at a full
airport. -/
theorem ocupacion_siempre_acotada_witness :
    (0 ≤ inicializar_ocupacion 2 5 ∧ inicializar_ocupacion 2 5 ≤ 2) ∧
    ((log_evento 2 2 1 "ext_llegada").ocupacion = 2 ∧
      (log_evento 2 2 1 "ext_llegada").evento = "ext_llegada_cap_llena") :=
  ⟨(ocupacion_siempre_acotada 2 5 [] (by norm_num)).1,
    (ocupacion_siempre_acotada 2 5 [] (by norm_num)).2.2 2 1 "ext_llegada"
      (by norm_num) (by norm_num) (by norm_num) (by norm_num)⟩

theorem esperar_pista_ge (s u a : ℚ) : u + s ≤ esperar_pista s u a := by
  unfold esperar_pista
  split
  · exact le_refl _
  · next h => exact le_of_not_lt h

theorem init_le_foldl_max (l : List ℚ) : ∀ b : ℚ, b ≤ l.foldl max b := by
  induction l with
  | nil => intro b; simp
  | cons x xs ih => intro b; exact le_trans (le_max_left b x) (ih (max b x))

theorem le_foldl_max (l : List ℚ) : ∀ (b a : ℚ), a ∈ l → a ≤ l.foldl max b := by
  induction l with
  | nil => intro b a ha; simp at ha
  | cons x xs ih =>
      intro b a ha
      rcases List.mem_cons.mp ha with rfl | ha
      · exact le_trans (le_max_right b a) (init_le_foldl_max xs (max b a))
      · exact ih (max b x) a ha

theorem le_sello_visible (inicial : ℚ) (escritos : List ℚ) (c r : ℚ)
    (hr : r ∈ escritos) (hc : r ≤ c) : r ≤ sello_visible inicial escritos c :=
  le_foldl_max _ inicial r (List.mem_filter.mpr ⟨hr, by simpa using hc⟩)

theorem pista_concurrente_chain (sep inicial : ℚ) :
    ∀ (llamadas escritos : List ℚ),
      sin_solape sep inicial escritos llamadas = true →
      List.Chain' (fun a b => a + sep ≤ b)
        (pista_concurrente sep inicial escritos llamadas) := by
  intro llamadas
  induction llamadas with
  | nil => intro escritos _; simp [pista_concurrente]
  | cons c resto ih =>
      intro escritos h
      simp only [sin_solape, Bool.and_eq_true] at h
      obtain ⟨hhead, hresto⟩ := h
      simp only [pista_concurrente]
      refine (ih _ hresto).cons' ?_
      intro y hy
      cases resto with
      | nil => simp [pista_concurrente] at hy
      | cons c2 resto2 =>
          simp only [pista_concurrente, List.head?_cons, Option.mem_def,
            Option.some.injEq] at hy
          subst hy
          replace hhead :
              decide (esperar_pista sep (sello_visible inicial escritos c) c ≤ c2) =
                true := hhead
          have hrc2 := of_decide_eq_true hhead
          have hsello :
              esperar_pista sep (sello_visible inicial escritos c) c ≤
                sello_visible inicial
                  (esperar_pista sep (sello_visible inicial escritos c) c :: escritos)
                  c2 :=
            le_sello_visible inicial _ c2 _ (List.mem_cons_self _ _) hrc2
          calc esperar_pista sep (sello_visible inicial escritos c) c + sep
              ≤ sello_visible inicial
                  (esperar_pista sep (sello_visible inicial escritos c) c :: escritos)
                  c2 + sep := by linarith
            _ ≤ _ := esperar_pista_ge sep _ c2

/-- Claim C2 counterexample: with `separar_minutos = 3`, a runway event
already stamped at minute 5 and two further flights calling
`_esperar_pista` at minutes 6 and 7 (both inside the airport resource at
once, reachable with capacity at least 2), the second caller still reads
the stale stamp 5 because the first one writes only on resuming: both
resume and stamp at minute 8, so the runway-event trace is `[5, 8, 8]`
and two successive runway events are 0 < 3 minutes apart. -/
theorem separacion_pista_contraejemplo :
    pista_concurrente 3 (-1000000000) [] [5, 6, 7] = [5, 8, 8] ∧
    ¬ List.Chain' (fun a b => a + 3 ≤ b)
      (pista_concurrente 3 (-1000000000) [] [5, 6, 7]) := by
  have hx : pista_concurrente 3 (-1000000000) [] [5, 6, 7] = [5, 8, 8] := by
    norm_num [pista_concurrente, sello_visible, esperar_pista, max_def]
  refine ⟨hx, ?_⟩
  rw [hx]
  intro hc
  simp only [List.chain'_cons, List.chain'_singleton, and_true] at hc
  linarith [hc.2]

/-- Claim C2 amended: each flight calling `_esperar_pista` resumes no
earlier than `separar_minutos` past the runway stamp it read at its call
instant, and the claimed pairwise separation of successive runway events
holds whenever runway waits do not overlap (every call is made no earlier
than the previous call resume instant); two concurrent waiters read the
same stale stamp — `ultimo` is captured before the yield and never
rechecked — and can produce coinciding runway events. -/
theorem separacion_pista_sin_solape (sep inicial : ℚ)
    (escritos llamadas : List ℚ)
    (h : sin_solape sep inicial escritos llamadas = true) :
    List.Chain' (fun a b => a + sep ≤ b)
      (pista_concurrente sep inicial escritos llamadas) ∧
    ∀ u c : ℚ, u + sep ≤ esperar_pista sep u c :=
  ⟨pista_concurrente_chain sep inicial llamadas escritos h,
    fun u c => esperar_pista_ge sep u c⟩

/-- Concrete instantiation of `separacion_pista_sin_solape`: calls at
minutes 5, 9 and 14 never overlap and yield runway events `[5, 9, 14]`,
each pair at least 3 minutes apart. -/
theorem separacion_pista_sin_solape_witness :
    List.Chain' (fun a b => a + 3 ≤ b)
      (pista_concurrente 3 (-1000000000) [] [5, 9, 14]) :=
  (separacion_pista_sin_solape 3 (-1000000000) [] [5, 9, 14]
    (by norm_num [sin_solape, sello_visible, esperar_pista, max_def])).1

/-- Claim C3 counterexample: a flight row with destination EXTERIOR,
planned distance 0 and nominal duration 100 minutes, run alone with
in-range sampled speeds, arrives 16 minutes after its scheduled
departure, so the recorded `retraso_total_min` is `-84 < 0`: the recorded
total delay is not always nonnegative. -/
theorem retraso_total_contraejemplo :
    (vuelo_exterior_aislado config_base 0 0 48 275 850 380 100).2 = -84 ∧
    (vuelo_exterior_aislado config_base 0 0 48 275 850 380 100).2 < 0 := by
  norm_num [vuelo_exterior_aislado, config_base, esperar_pista,
    esperar_separacion_ruta, tiempo_fase, segmentos_distancia, retraso_total]

/-- Claim C3 amended: the recorded real arrival is at least the scheduled
departure (the flight starts no earlier than its scheduled minute and
virtual time is monotone), and under that premise the recorded total
delay equals `(llegada_real - salida_prog) - duracion_minutos`, so it is
nonnegative exactly when the realized flight time is at least the
nominal plan duration; the recorded `tiempo_total_min` is always
nonnegative. -/
theorem retraso_total_formula (llegada salida duracion : ℚ)
    (h : salida ≤ llegada) :
    retraso_total llegada salida duracion = llegada - salida - duracion ∧
    (0 ≤ retraso_total llegada salida duracion ↔ salida + duracion ≤ llegada) ∧
    0 ≤ tiempo_total llegada salida := by
  have hmax : max 0 (llegada - salida) = llegada - salida :=
    max_eq_right (sub_nonneg.mpr h)
  refine ⟨?_, ?_, le_max_left _ _⟩
  · unfold retraso_total; rw [hmax]
  · unfold retraso_total; rw [hmax]
    constructor
    · intro h0; linarith
    · intro h0; linarith

/-- Concrete instantiation of `retraso_total_formula`. -/
theorem retraso_total_formula_witness :
    retraso_total 16 0 10 = 16 - 0 - 10 ∧
    (0 ≤ retraso_total 16 0 10 ↔ (0:ℚ) + 10 ≤ 16) ∧
    0 ≤ tiempo_total 16 0 :=
  retraso_total_formula 16 0 10 (by norm_num)

/-- Claim C5 counterexample: a plan row with scheduled arrival before the
scheduled departure is rejected by the `PlanDeVueloBase` validation, yet
`run` returns without error and still creates a flight process for that
row, because the validation exception is swallowed by the
`try/except: pass` of the ingestion loop. -/
theorem validacion_no_aborta_contraejemplo :
    valida_plan_de_vuelo ⟨"F1", "MAD", "BCN", 10, 5⟩ =
      .error ("La hora de salida debe ser anterior a la llegada programada.") ∧
    run_crear_procesos [⟨"F1", "MAD", "BCN", 10, 5⟩] =
      .ok [⟨"F1", "MAD", "BCN", 10, 5⟩] :=
  ⟨rfl, rfl⟩

/-- Claim C5 amended: `run` evaluates the `PlanDeVueloBase` validation of
every row but catches and ignores any validation error, never propagates
a typed error to the caller, and creates a flight process for every plan
row, valid or not. -/
theorem run_crea_proceso_para_toda_fila (filas : List FilaPlan) :
    run_crear_procesos filas = .ok filas := by
  unfold run_crear_procesos
  have h2 : filas.map (fun f =>
      match valida_plan_de_vuelo f with
      | .ok _ => f
      | .error _ => f) = filas.map id :=
    List.map_congr_left (fun a _ => by cases valida_plan_de_vuelo a <;> rfl)
  rw [h2, List.map_id]

/-- Claim C8 counterexample: an EXTERIOR flight whose approach phase ends
at minute 100 on a route whose previous separation stamp is minute 99
does not terminate at minute 100: the en-route separation wait of
`_esperar_separacion_ruta`, executed before the EXTERIOR branch, delays
the record to minute 102. -/
theorem exterior_espera_ruta_contraejemplo :
    (tramo_final_exterior config_base 100 99).llegada ≠ 100 ∧
    (tramo_final_exterior config_base 100 99).llegada = 102 := by
  norm_num [tramo_final_exterior, esperar_separacion_ruta, config_base]

/-- Claim C8 amended: an EXTERIOR flight never requests a destination
capacity resource, emits no landing event, records
`destino_final = "EXTERIOR"` and `tiempo_espera_cola_min = 0`, and
terminates after the approach phase plus only the en-route separation
wait, which is bounded by `separar_minutos`. -/
theorem tramo_exterior_propiedades (cfg : ConfigSimulacion)
    (fin_aprox ruta_ultimo : ℚ) :
    (tramo_final_exterior cfg fin_aprox ruta_ultimo).pide_recurso_destino = false ∧
    (tramo_final_exterior cfg fin_aprox ruta_ultimo).emite_aterrizaje = false ∧
    (tramo_final_exterior cfg fin_aprox ruta_ultimo).destino_final = "EXTERIOR" ∧
    (tramo_final_exterior cfg fin_aprox ruta_ultimo).espera_cola = 0 ∧
    fin_aprox ≤ (tramo_final_exterior cfg fin_aprox ruta_ultimo).llegada ∧
    (0 ≤ cfg.separar_minutos → ruta_ultimo ≤ fin_aprox →
      (tramo_final_exterior cfg fin_aprox ruta_ultimo).llegada ≤
        fin_aprox + cfg.separar_minutos) := by
  unfold tramo_final_exterior esperar_separacion_ruta
  refine ⟨rfl, rfl, rfl, rfl, ?_, ?_⟩
  · dsimp only
    split
    · next h => exact le_of_lt h
    · exact le_refl _
  · intro hs hr
    dsimp only
    split
    · next h => linarith
    · linarith

/-- Concrete instantiation of `tramo_exterior_propiedades`. -/
theorem tramo_exterior_propiedades_witness :
    (tramo_final_exterior config_base 100 99).destino_final = "EXTERIOR" ∧
    (tramo_final_exterior config_base 100 99).espera_cola = 0 ∧
    (tramo_final_exterior config_base 100 99).llegada ≤
      100 + config_base.separar_minutos := by
  have h := tramo_exterior_propiedades config_base 100 99
  exact ⟨h.2.2.1, h.2.2.2.1,
    h.2.2.2.2.2 (by norm_num [config_base]) (by norm_num)⟩

/-- Claim C10: evaluating `_redirigir_si_conviene` on a disconnected
graph whose best candidate (closest to the scheduled destination D) has
no path from the current origin O raises instead of returning the
4-tuple: the `except nx.NetworkXNoPath` handler is followed by an
unconditional read of the never-assigned local `dist_total`, so the call
ends in an `UnboundLocalError`. -/
theorem redirigir_lanza_unbound_local :
    redirigir_si_conviene ["C"]
      (fun s => if s = "C" then some ⟨0, 5⟩ else none)
      (fun a b => if (a = "D" ∧ b = "C") ∨ (a = "C" ∧ b = "D") then some 100 else none)
      "D" 50 "O" 500 = .error ("UnboundLocalError: dist_total") :=
  rfl

theorem elegible_ne {d o : String} {R : String → Option EstadoRecurso}
    {c : String} (h : elegible d o R c = true) : c ≠ d ∧ c ≠ o := by
  by_cases h1 : c = d ∨ c = o
  · rw [elegible, if_pos h1] at h
    exact absurd h (by simp)
  · exact not_or.mp h1

theorem busca_candidato_mono (d o : String) (R : String → Option EstadoRecurso)
    (spd : String → String → Option ℚ) :
    ∀ (l : List String) (b : String × ℚ) (c : String) (dc : ℚ),
      busca_candidato d o R spd l (some b) = some (c, dc) → dc ≤ b.2 := by
  intro l
  induction l with
  | nil =>
      intro b c dc h
      simp only [busca_candidato, Option.some.injEq] at h
      exact le_of_eq (by rw [h])
  | cons x resto ih =>
      intro b c dc h
      simp only [busca_candidato] at h
      cases hel : elegible d o R x with
      | false =>
          rw [hel] at h
          replace h : busca_candidato d o R spd resto (some b) = some (c, dc) := h
          exact ih b c dc h
      | true =>
          rw [hel] at h
          cases hspd : spd d x with
          | none =>
              rw [hspd] at h
              replace h : busca_candidato d o R spd resto (some b) = some (c, dc) := h
              exact ih b c dc h
          | some dist =>
              rw [hspd] at h
              replace h : busca_candidato d o R spd resto
                  (if dist < b.2 then some (x, dist) else some b) = some (c, dc) := h
              by_cases hlt : dist < b.2
              · rw [if_pos hlt] at h
                exact le_trans (ih _ c dc h) (le_of_lt hlt)
              · rw [if_neg hlt] at h
                exact ih b c dc h

theorem busca_candidato_valido (d o : String) (R : String → Option EstadoRecurso)
    (spd : String → String → Option ℚ) :
    ∀ (l : List String) (acc : Option (String × ℚ)) (c : String) (dc : ℚ),
      busca_candidato d o R spd l acc = some (c, dc) →
      acc = some (c, dc) ∨
        (c ∈ l ∧ elegible d o R c = true ∧ spd d c = some dc) := by
  intro l
  induction l with
  | nil =>
      intro acc c dc h
      simp only [busca_candidato] at h
      exact Or.inl h
  | cons x resto ih =>
      intro acc c dc h
      simp only [busca_candidato] at h
      rcases ih _ c dc h with hacc | ⟨hm, he, hs⟩
      · cases hel : elegible d o R x with
        | false =>
            rw [hel] at hacc
            replace hacc : acc = some (c, dc) := hacc
            exact Or.inl hacc
        | true =>
            rw [hel] at hacc
            cases hspd : spd d x with
            | none =>
                rw [hspd] at hacc
                replace hacc : acc = some (c, dc) := hacc
                exact Or.inl hacc
            | some dist =>
                rw [hspd] at hacc
                cases acc with
                | none =>
                    replace hacc : some (x, dist) = some (c, dc) := hacc
                    simp only [Option.some.injEq, Prod.mk.injEq] at hacc
                    refine Or.inr ⟨?_, ?_, ?_⟩
                    · rw [← hacc.1]; exact List.mem_cons_self x resto
                    · rw [← hacc.1]; exact hel
                    · rw [← hacc.1, ← hacc.2]; exact hspd
                | some b =>
                    replace hacc :
                        (if dist < b.2 then some (x, dist) else some b) = some (c, dc) := hacc
                    by_cases hlt : dist < b.2
                    · rw [if_pos hlt] at hacc
                      simp only [Option.some.injEq, Prod.mk.injEq] at hacc
                      refine Or.inr ⟨?_, ?_, ?_⟩
                      · rw [← hacc.1]; exact List.mem_cons_self x resto
                      · rw [← hacc.1]; exact hel
                      · rw [← hacc.1, ← hacc.2]; exact hspd
                    · rw [if_neg hlt] at hacc
                      exact Or.inl hacc
      · exact Or.inr ⟨List.mem_cons_of_mem x hm, he, hs⟩

theorem busca_candidato_min (d o : String) (R : String → Option EstadoRecurso)
    (spd : String → String → Option ℚ) :
    ∀ (l : List String) (acc : Option (String × ℚ)) (c : String) (dc : ℚ),
      busca_candidato d o R spd l acc = some (c, dc) →
      ∀ x ∈ l, elegible d o R x = true → ∀ dx, spd d x = some dx → dc ≤ dx := by
  intro l
  induction l with
  | nil => intro acc c dc _ x hx; simp at hx
  | cons y resto ih =>
      intro acc c dc h x hx helx dx hspdx
      simp only [busca_candidato] at h
      rcases List.mem_cons.mp hx with hxy | hxm
      · subst hxy
        rw [helx, hspdx] at h
        cases acc with
        | none =>
            replace h : busca_candidato d o R spd resto (some (x, dx)) = some (c, dc) := h
            exact busca_candidato_mono d o R spd resto _ c dc h
        | some b =>
            replace h : busca_candidato d o R spd resto
                (if dx < b.2 then some (x, dx) else some b) = some (c, dc) := h
            by_cases hlt : dx < b.2
            · rw [if_pos hlt] at h
              exact busca_candidato_mono d o R spd resto _ c dc h
            · rw [if_neg hlt] at h
              exact le_trans (busca_candidato_mono d o R spd resto _ c dc h)
                (not_lt.mp hlt)
      · exact ih _ c dc h x hxm helx dx hspdx

/-- Claim C4: once invoked above the wait threshold, the diversion
planner considers only candidates distinct from the scheduled destination
and the origin that have free capacity, selects the candidate minimising
the km-weighted shortest-path distance from the scheduled destination,
and accepts the diversion only if the estimated time to reach the
candidate from the origin (distance over the medium-range cruise speed,
in minutes) is strictly below the projected wait and the origin-candidate
distance is at most 1.3 times the planned distance; otherwise the flight
keeps its scheduled destination, projected wait, and planned distance. -/
theorem redirigir_cumple_especificacion (nodos : List String)
    (recursos : String → Option EstadoRecurso)
    (spd : String → String → Option ℚ) (destino_original : String)
    (tiempo_espera : ℚ) (origen_actual : String) (dist_plan_km : ℚ)
    (cfg : ConfigSimulacion) (resultado : String × ℚ × Bool × ℚ)
    (humbral : cfg.T_umbral_espera < tiempo_espera)
    (h : redirigir_si_conviene nodos recursos spd destino_original
        tiempo_espera origen_actual dist_plan_km = .ok resultado) :
    EspecDesvio nodos recursos spd destino_original tiempo_espera
      origen_actual dist_plan_km resultado := by
  unfold redirigir_si_conviene at h
  cases hb : busca_candidato destino_original origen_actual recursos spd nodos none with
  | none =>
      rw [hb] at h
      simp only [Except.ok.injEq] at h
      subst h
      exact ⟨fun hr => by simp at hr, fun _ => ⟨rfl, rfl, rfl⟩⟩
  | some p =>
      obtain ⟨cand, dist_d⟩ := p
      rw [hb] at h
      replace h : (match spd origen_actual cand with
          | none => (Except.error "UnboundLocalError: dist_total" :
              Except String (String × ℚ × Bool × ℚ))
          | some dist_total =>
              if (if dist_plan_km * (13/10) < dist_total then tiempo_espera + 1
                  else tiempo_fase dist_total TIPO_MEDIO_RADIO.vel_cru_kmh) <
                  tiempo_espera then
                Except.ok (cand,
                  (if dist_plan_km * (13/10) < dist_total then tiempo_espera + 1
                    else tiempo_fase dist_total TIPO_MEDIO_RADIO.vel_cru_kmh),
                  true, dist_total)
              else Except.ok (destino_original, tiempo_espera, false, dist_plan_km)) =
          Except.ok resultado := h
      cases hs : spd origen_actual cand with
      | none =>
          rw [hs] at h
          exact Except.noConfusion
            (show (Except.error "UnboundLocalError: dist_total" :
                Except String (String × ℚ × Bool × ℚ)) = Except.ok resultado from h)
      | some dist_total =>
          rw [hs] at h
          replace h : (if (if dist_plan_km * (13/10) < dist_total then tiempo_espera + 1
              else tiempo_fase dist_total TIPO_MEDIO_RADIO.vel_cru_kmh) <
              tiempo_espera then
                Except.ok (cand,
                  (if dist_plan_km * (13/10) < dist_total then tiempo_espera + 1
                    else tiempo_fase dist_total TIPO_MEDIO_RADIO.vel_cru_kmh),
                  true, dist_total)
              else Except.ok (destino_original, tiempo_espera, false, dist_plan_km)) =
            Except.ok resultado := h
          by_cases h13 : dist_plan_km * (13/10) < dist_total
          · rw [if_pos h13] at h
            rw [if_neg (by linarith : ¬ tiempo_espera + 1 < tiempo_espera)] at h
            simp only [Except.ok.injEq] at h
            subst h
            exact ⟨fun hr => by simp at hr, fun _ => ⟨rfl, rfl, rfl⟩⟩
          · rw [if_neg h13] at h
            by_cases hacc :
                tiempo_fase dist_total TIPO_MEDIO_RADIO.vel_cru_kmh < tiempo_espera
            · rw [if_pos hacc] at h
              simp only [Except.ok.injEq] at h
              subst h
              constructor
              · intro _
                rcases busca_candidato_valido destino_original origen_actual
                    recursos spd nodos none cand dist_d hb with hv | ⟨hmem, hel, hspdd⟩
                · exact Option.noConfusion hv
                have hne := elegible_ne hel
                refine ⟨hne.1, hne.2, hel, ⟨dist_d, hspdd, ?_⟩,
                  ⟨dist_total, hs, rfl, not_lt.mp h13, rfl, hacc⟩⟩
                intro c hc helc dc hdc
                exact busca_candidato_min destino_original origen_actual recursos
                  spd nodos none cand dist_d hb c hc helc dc hdc
              · intro hr; simp at hr
            · rw [if_neg hacc] at h
              simp only [Except.ok.injEq] at h
              subst h
              exact ⟨fun hr => by simp at hr, fun _ => ⟨rfl, rfl, rfl⟩⟩

/-- Concrete instantiation of `redirigir_cumple_especificacion`: the
flight bound for D, waiting 50 minutes, is diverted to C (distance 150
from the origin, flight time 10 minutes, within 1.3 times the planned
500 km). -/
theorem redirigir_cumple_especificacion_witness :
    EspecDesvio ["C"] recursos_test spd_test "D" 50 "O" 500
      ("C", 10, true, 150) := by
  have h10 : tiempo_fase 150 TIPO_MEDIO_RADIO.vel_cru_kmh = 10 := by
    norm_num [tiempo_fase, TIPO_MEDIO_RADIO]
  have h : redirigir_si_conviene ["C"] recursos_test spd_test "D" 50 "O" 500 =
      .ok ("C", 10, true, 150) := by
    have h1 : redirigir_si_conviene ["C"] recursos_test spd_test "D" 50 "O" 500 =
        (if (if (500 * (13/10) : ℚ) < 150 then (50:ℚ) + 1
            else tiempo_fase 150 TIPO_MEDIO_RADIO.vel_cru_kmh) < 50 then
          Except.ok ("C",
            (if (500 * (13/10) : ℚ) < 150 then (50:ℚ) + 1
              else tiempo_fase 150 TIPO_MEDIO_RADIO.vel_cru_kmh), true, 150)
        else Except.ok ("D", 50, false, 500)) := rfl
    rw [h1, h10]
    rw [if_neg (by norm_num : ¬ (500 * (13/10) : ℚ) < 150)]
    rw [if_pos (by norm_num : (10:ℚ) < 50)]
  exact redirigir_cumple_especificacion ["C"] recursos_test spd_test "D" 50 "O"
    500 config_base ("C", 10, true, 150) (by norm_num [config_base]) h

theorem randint_model_rango (a b : ℤ) (r : ℕ) (hab : a ≤ b) :
    a ≤ randint_model a b r ∧ randint_model a b r ≤ b := by
  have hm : (0:ℤ) < b - a + 1 := by linarith
  have h1 : 0 ≤ (r:ℤ) % (b - a + 1) := Int.emod_nonneg _ (ne_of_gt hm)
  have h2 : (r:ℤ) % (b - a + 1) < b - a + 1 := Int.emod_lt_of_pos _ hm
  unfold randint_model
  constructor <;> linarith

theorem clamp_rango (x lo hi : ℤ) (h : lo ≤ hi) :
    lo ≤ min (max x lo) hi ∧ min (max x lo) hi ≤ hi :=
  ⟨le_min (le_max_right _ _) h, min_le_right _ _⟩

theorem generar_minutos_salida_ok (cantidad inicio fin : ℕ) (concentrar : Bool)
    (d : SorteosMinutos) (h : inicio < fin) :
    ∃ hs, generar_minutos_salida cantidad inicio fin concentrar d = .ok hs ∧
      hs.length = cantidad ∧
      ∀ m ∈ hs, (inicio:ℤ) * 60 ≤ m ∧ m ≤ (fin:ℤ) * 60 - 1 := by
  have hZ : (inicio:ℤ) * 60 < (fin:ℤ) * 60 := by
    have hc : (inicio:ℤ) < (fin:ℤ) := by exact_mod_cast h
    linarith
  have hle : (inicio:ℤ) * 60 ≤ (fin:ℤ) * 60 - 1 := by linarith
  unfold generar_minutos_salida
  rw [if_neg (not_le.mpr hZ)]
  cases concentrar with
  | false =>
      refine ⟨_, rfl, by simp, ?_⟩
      intro m hm
      simp only [List.mem_map] at hm
      obtain ⟨i, _, rfl⟩ := hm
      exact randint_model_rango _ _ _ hle
  | true =>
      refine ⟨_, rfl, by simp, ?_⟩
      intro m hm
      simp only [List.mem_map] at hm
      obtain ⟨i, _, rfl⟩ := hm
      exact clamp_rango _ _ _ hle

theorem filas_de_arista_length (cfg : ConfigVuelos) (s : SorteosPlan)
    (a : Arista) (w : ℚ) :
    ∀ (n : ℕ) (hs : List ℤ) (idx : ℕ), n ≤ hs.length →
      (filas_de_arista cfg s a w n hs idx).length = n := by
  intro n
  induction n with
  | zero => intro hs idx _; rfl
  | succ k ih =>
      intro hs idx hlen
      cases hs with
      | nil => simp at hlen
      | cons salida hs2 =>
          simp only [filas_de_arista, List.length_cons]
          rw [ih hs2 (idx + 1) (by simpa using hlen)]

theorem filas_de_arista_salida (cfg : ConfigVuelos) (s : SorteosPlan)
    (a : Arista) (w : ℚ) :
    ∀ (n : ℕ) (hs : List ℤ) (idx : ℕ) (f : FilaGenerada),
      f ∈ filas_de_arista cfg s a w n hs idx → f.minuto_salida ∈ hs := by
  intro n
  induction n with
  | zero => intro hs idx f hf; simp [filas_de_arista] at hf
  | succ k ih =>
      intro hs idx f hf
      cases hs with
      | nil => simp [filas_de_arista] at hf
      | cons salida hs2 =>
          simp only [filas_de_arista, List.mem_cons] at hf
          rcases hf with hf | hf
          · subst hf; exact List.mem_cons_self _ _
          · exact List.mem_cons_of_mem _ (ih hs2 (idx + 1) f hf)

theorem filas_por_aristas_length (cfg : ConfigVuelos) (s : SorteosPlan) :
    ∀ (lw : List (Arista × ℚ)) (counts : List ℕ) (horarios : List ℤ) (idx : ℕ),
      counts.length = lw.length → counts.sum ≤ horarios.length →
      (filas_por_aristas cfg s lw counts horarios idx).length = counts.sum := by
  intro lw
  induction lw with
  | nil =>
      intro counts horarios idx hlen _
      rw [List.length_eq_zero.mp hlen]
      rfl
  | cons aw ars ih =>
      intro counts horarios idx hlen hsum
      cases counts with
      | nil => simp at hlen
      | cons n ns =>
          obtain ⟨a, w⟩ := aw
          simp only [List.sum_cons] at hsum ⊢
          simp only [filas_por_aristas, List.length_append]
          have hn : n ≤ horarios.length := by omega
          have hd : ns.sum ≤ (horarios.drop n).length := by
            rw [List.length_drop]; omega
          rw [filas_de_arista_length cfg s a w n horarios idx hn]
          rw [ih ns (horarios.drop n) (idx + n) (by simpa using hlen) hd]

theorem filas_por_aristas_salida (cfg : ConfigVuelos) (s : SorteosPlan) :
    ∀ (lw : List (Arista × ℚ)) (counts : List ℕ) (horarios : List ℤ) (idx : ℕ)
      (f : FilaGenerada), f ∈ filas_por_aristas cfg s lw counts horarios idx →
      f.minuto_salida ∈ horarios := by
  intro lw
  induction lw with
  | nil => intro counts horarios idx f hf; simp [filas_por_aristas] at hf
  | cons aw ars ih =>
      intro counts horarios idx f hf
      cases counts with
      | nil => simp [filas_por_aristas] at hf
      | cons n ns =>
          obtain ⟨a, w⟩ := aw
          simp only [filas_por_aristas, List.mem_append] at hf
          rcases hf with hf | hf
          · exact filas_de_arista_salida cfg s a w n horarios idx f hf
          · exact List.drop_subset n horarios (ih ns (horarios.drop n) (idx + n) f hf)

theorem resolver_test_ok :
    resolver_pesos_rutas [⟨"A", "B", 1, 100⟩] none =
      .ok [(⟨"A", "B", 1, 100⟩, 1)] := by
  unfold resolver_pesos_rutas factor_manual
  norm_num [List.filterMap_cons]

/-- Claim C6 counterexample: with `total_vuelos_diarios = 0` (and a graph
holding one positive-weight edge) the generator does not produce 0 rows:
the row list is empty, `pd.DataFrame([])` has no columns, and the final
`sort_values(by="minuto_salida")` raises a KeyError. -/
theorem generar_plan_vacio_contraejemplo :
    generar_plan_diario ⟨0, 6, 22, true, 800, 700, 5/100, 1800⟩ none [0]
      ⟨fun _ => false, fun _ => false, fun _ _ => 0, fun _ => 0⟩
      ⟨fun _ => false, fun _ => false⟩ [⟨"A", "B", 1, 100⟩] =
      .error ("KeyError: minuto_salida") := by
  have hmin : generar_minutos_salida 0 6 22 true
      ⟨fun _ => false, fun _ => false, fun _ _ => 0, fun _ => 0⟩ =
      .ok ([] : List ℤ) := by
    unfold generar_minutos_salida
    norm_num
  unfold generar_plan_diario
  rw [resolver_test_ok, hmin]
  rfl

/-- Claim C6 amended: provided the daily total is at least 1 (with a zero
total the empty row list makes the final sort raise) and the hour window
is nonempty (otherwise the generator raises by design), the generator
returns exactly `total_vuelos_diarios` rows, with the per-edge counts
given by the single multinomial draw over the renormalised positive edge
weights (passed as the abstract count vector summing to the total), every
departure minute inside `[hora_inicio*60, hora_fin*60)`, and the rows
sorted by departure minute. -/
theorem generar_plan_diario_correcto (cfg : ConfigVuelos)
    (pm : Option (String → String → Option ℚ)) (counts : List ℕ)
    (dMin : SorteosMinutos) (s : SorteosPlan) (aristas : List Arista)
    (con_peso : List (Arista × ℚ))
    (hN : 0 < cfg.total_vuelos_diarios)
    (hhoras : cfg.hora_inicio < cfg.hora_fin)
    (hres : resolver_pesos_rutas aristas pm = .ok con_peso)
    (hlen : counts.length = con_peso.length)
    (hsum : counts.sum = cfg.total_vuelos_diarios) :
    ∃ plan, generar_plan_diario cfg pm counts dMin s aristas = .ok plan ∧
      plan.length = cfg.total_vuelos_diarios ∧
      (∀ f ∈ plan, (cfg.hora_inicio : ℤ) * 60 ≤ f.minuto_salida ∧
        f.minuto_salida < (cfg.hora_fin : ℤ) * 60) ∧
      List.Sorted le_salida plan := by
  obtain ⟨horarios, hgen, hhl, hhm⟩ :=
    generar_minutos_salida_ok cfg.total_vuelos_diarios cfg.hora_inicio
      cfg.hora_fin cfg.concentracion_horas_punta dMin hhoras
  have hlen2 : counts.sum ≤ horarios.length := by rw [hhl, hsum]
  have hplanlen :
      (filas_por_aristas cfg s con_peso counts horarios 0).length = counts.sum :=
    filas_por_aristas_length cfg s con_peso counts horarios 0 hlen hlen2
  have hnonil : filas_por_aristas cfg s con_peso counts horarios 0 ≠ [] := by
    intro hcon
    rw [hcon] at hplanlen
    simp only [List.length_nil] at hplanlen
    omega
  have hne : (filas_por_aristas cfg s con_peso counts horarios 0).isEmpty = false := by
    rw [← Bool.not_eq_true, List.isEmpty_iff]
    exact hnonil
  refine ⟨(filas_por_aristas cfg s con_peso counts horarios 0).insertionSort le_salida,
    ?_, ?_, ?_, ?_⟩
  · unfold generar_plan_diario
    rw [hres, hgen]
    show (if (filas_por_aristas cfg s con_peso counts horarios 0).isEmpty then
        Except.error "KeyError: minuto_salida"
      else Except.ok ((filas_por_aristas cfg s con_peso counts
        horarios 0).insertionSort le_salida)) = _
    rw [hne]
    rfl
  · rw [List.length_insertionSort, hplanlen, hsum]
  · intro f hf
    rw [List.mem_insertionSort] at hf
    have hb := hhm f.minuto_salida
      (filas_por_aristas_salida cfg s con_peso counts horarios 0 f hf)
    exact ⟨hb.1, by omega⟩
  · exact List.sorted_insertionSort le_salida _

/-- Concrete instantiation of `generar_plan_diario_correcto`: two flights
over the single edge A-B, uniform departures in the 06:00 to 22:00
window. -/
theorem generar_plan_diario_correcto_witness :
    ∃ plan, generar_plan_diario ⟨2, 6, 22, false, 800, 700, 5/100, 1800⟩ none [2]
        ⟨fun _ => false, fun _ => false, fun _ _ => 0, fun _ => 0⟩
        ⟨fun _ => false, fun _ => false⟩ [⟨"A", "B", 1, 100⟩] = .ok plan ∧
      plan.length = 2 ∧
      (∀ f ∈ plan, (6:ℤ) * 60 ≤ f.minuto_salida ∧ f.minuto_salida < (22:ℤ) * 60) ∧
      List.Sorted le_salida plan :=
  generar_plan_diario_correcto ⟨2, 6, 22, false, 800, 700, 5/100, 1800⟩ none [2]
    ⟨fun _ => false, fun _ => false, fun _ _ => 0, fun _ => 0⟩
    ⟨fun _ => false, fun _ => false⟩ [⟨"A", "B", 1, 100⟩]
    [(⟨"A", "B", 1, 100⟩, 1)] (by norm_num) (by norm_num) resolver_test_ok rfl rfl

theorem clave_antes_antisimetrica {e f : EventoCola}
    (h1 : clave_antes e f) (h2 : clave_antes f e) :
    e.tiempo = f.tiempo ∧ e.secuencia = f.secuencia := by
  rcases h1 with h1 | ⟨ht1, hs1⟩
  · rcases h2 with h2 | ⟨ht2, hs2⟩
    · exact absurd (lt_trans h1 h2) (lt_irrefl _)
    · rw [ht2] at h1; exact absurd h1 (lt_irrefl _)
  · rcases h2 with h2 | ⟨ht2, hs2⟩
    · rw [ht1] at h2; exact absurd h2 (lt_irrefl _)
    · exact ⟨ht1, le_antisymm hs1 hs2⟩

theorem minimo_unico {q : List EventoCola} {e1 e2 : EventoCola}
    (hp : q.Pairwise (fun a b => a.secuencia ≠ b.secuencia))
    (h1 : e1 ∈ q) (h2 : e2 ∈ q)
    (hm1 : ∀ f ∈ q, clave_antes e1 f) (hm2 : ∀ f ∈ q, clave_antes e2 f) :
    e1 = e2 := by
  by_cases he : e1 = e2
  · exact he
  · have hk := clave_antes_antisimetrica (hm1 e2 h2) (hm2 e1 h1)
    have hsym : Symmetric (fun a b : EventoCola => a.secuencia ≠ b.secuencia) :=
      fun _ _ hab => hab.symm
    exact absurd hk.2 (hp.forall hsym h1 h2 he)

theorem traza_despacho_unica :
    ∀ {q tr1 : List EventoCola}, TrazaDespacho q tr1 →
      ∀ {tr2 : List EventoCola},
        q.Pairwise (fun a b => a.secuencia ≠ b.secuencia) →
        TrazaDespacho q tr2 → tr1 = tr2 := by
  intro q tr1 h1
  induction h1 with
  | nil =>
      intro tr2 _ h2
      cases h2 with
      | nil => rfl
      | cons hpaso _ =>
          rcases hpaso with ⟨hmem, _, _⟩
          exact absurd hmem (List.not_mem_nil _)
  | cons hpaso htr ih =>
      rename_i q1 e1 resto1 tra
      intro tr2 hp h2
      cases h2 with
      | nil =>
          rcases hpaso with ⟨hmem, _, _⟩
          exact absurd hmem (List.not_mem_nil _)
      | cons hpaso2 htr2 =>
          rename_i e2 resto2 trb
          rcases hpaso with ⟨hmem1, hmin1, hresto1⟩
          rcases hpaso2 with ⟨hmem2, hmin2, hresto2⟩
          have he := minimo_unico hp hmem1 hmem2 hmin1 hmin2
          subst he
          have hp2 : resto1.Pairwise (fun a b => a.secuencia ≠ b.secuencia) := by
            rw [hresto1]
            exact hp.sublist (q1.erase_sublist e1)
          have htr2b : TrazaDespacho resto1 trb := by
            rw [hresto1, ← hresto2]
            exact htr2
          rw [ih hp2 htr2b]

/-- Claim C7: the event loop is deterministic: from the same pending
queue, whose events carry pairwise distinct scheduling sequence numbers
(the tiebreaker at equal virtual instants), any two complete dispatch
traces are equal, so every stream derived from a run (FlightRecord rows
and OccupancyEvent rows included) is identical between two runs with the
same seed and inputs, all random draws being functions of the seeded
generators. -/
theorem despacho_deterministico (q tr1 tr2 : List EventoCola)
    (hp : q.Pairwise (fun a b => a.secuencia ≠ b.secuencia))
    (h1 : TrazaDespacho q tr1) (h2 : TrazaDespacho q tr2) : tr1 = tr2 :=
  traza_despacho_unica h1 hp h2

/-- Concrete instantiation of `despacho_deterministico` on a one-event
queue. -/
theorem despacho_deterministico_witness :
    TrazaDespacho [⟨5, 0, "despegue"⟩] [⟨5, 0, "despegue"⟩] ∧
    ([⟨5, 0, "despegue"⟩] : List EventoCola) = [⟨5, 0, "despegue"⟩] := by
  have hp : ([⟨5, 0, "despegue"⟩] : List EventoCola).Pairwise
      (fun a b => a.secuencia ≠ b.secuencia) := by simp
  have hpaso : PasoDespacho [⟨5, 0, "despegue"⟩] ⟨5, 0, "despegue"⟩ [] := by
    refine PasoDespacho.mk (by simp) ?_ ?_
    · intro f hf
      simp only [List.mem_singleton] at hf
      subst hf
      exact Or.inr ⟨rfl, le_refl _⟩
    · simp [List.erase_cons]
  have ht : TrazaDespacho [⟨5, 0, "despegue"⟩] [⟨5, 0, "despegue"⟩] :=
    TrazaDespacho.cons hpaso TrazaDespacho.nil
  exact ⟨ht, despacho_deterministico _ _ _ hp ht ht⟩

theorem eventos_repetidos_nombre (capacidad : ℤ) (t : ℚ) (nombre : String)
    (delta : ℤ) :
    ∀ (n : ℕ) (ocup : ℤ) (e : ℚ × ResultadoLog),
      e ∈ (eventos_repetidos capacidad t nombre delta n ocup).1 →
      e.2.evento = nombre ∨ e.2.evento = nombre ++ "_cap_llena" := by
  intro n
  induction n with
  | zero => intro ocup e he; simp [eventos_repetidos] at he
  | succ k ih =>
      intro ocup e he
      simp only [eventos_repetidos, List.mem_cons] at he
      rcases he with he | he
      · subst he
        unfold log_evento
        split
        · exact Or.inr rfl
        · exact Or.inl rfl
      · exact ih _ e he

theorem proceso_ruido_nombres (cfg : ConfigSimulacion) (horizonte : ℚ)
    (capacidad : ℤ) (d : SorteosRuido) :
    ∀ (n : ℕ) (ahora : ℚ) (ocup : ℤ) (k : ℕ) (e : ℚ × ResultadoLog),
      e ∈ proceso_ruido_exterior cfg horizonte capacidad d n ahora ocup k →
      e.2.evento = "ext_llegada" ∨ e.2.evento = "ext_llegada" ++ "_cap_llena" ∨
      e.2.evento = "ext_salida" ∨ e.2.evento = "ext_salida" ++ "_cap_llena" := by
  intro n
  induction n with
  | zero => intro ahora ocup k e he; simp [proceso_ruido_exterior] at he
  | succ m ih =>
      intro ahora ocup k e he
      simp only [proceso_ruido_exterior] at he
      split at he
      · simp at he
      · simp only [List.mem_append] at he
        rcases he with (he | he) | he
        · rcases eventos_repetidos_nombre capacidad _ "ext_llegada" 1 _ _ e he with h | h
          · exact Or.inl h
          · exact Or.inr (Or.inl h)
        · rcases eventos_repetidos_nombre capacidad _ "ext_salida" (-1) _ _ e he with h | h
          · exact Or.inr (Or.inr (Or.inl h))
          · exact Or.inr (Or.inr (Or.inr h))
        · exact ih _ _ _ e he

/-- Claim C9 counterexample: a run over a single-airport network with an
empty flight plan still emits an `ext_llegada` occupancy event at minute
90 (the external-noise process of the hub runs regardless of the plan,
and the empty plan only moves the horizon to the 1440 fallback), so the
occupancy stream does not consist of initial events alone. -/
theorem ruido_con_plan_vacio_contraejemplo :
    ((90:ℚ), (⟨2, "ext_llegada"⟩ : ResultadoLog)) ∈
      eventos_run_plan_vacio config_base 5 1 ⟨fun _ => 0, fun _ => 0, fun _ => 0⟩ 1 ∧
    "ext_llegada" ≠ "ocupacion_inicial" := by
  constructor
  · have hx : eventos_run_plan_vacio config_base 5 1
        ⟨fun _ => 0, fun _ => 0, fun _ => 0⟩ 1 =
        [((0:ℚ), ⟨1, "ocupacion_inicial"⟩), ((90:ℚ), ⟨2, "ext_llegada"⟩),
          ((105:ℚ), ⟨1, "ext_salida"⟩)] := by
      norm_num [eventos_run_plan_vacio, inicializar_ocupacion, horizonte_min,
        maximo, proceso_ruido_exterior, randint_nat, eventos_repetidos,
        log_evento, config_base]
    rw [hx]
    simp
  · decide

/-- Claim C9 amended: with an empty flight plan the FlightRecord stream is
empty (one record per plan row), but the OccupancyEvent stream is not
restricted to initial events: it holds the initial occupancy events plus
the events of the external-noise processes, which `__init__` schedules on
the hub airports independently of the plan — every event kind is
`ocupacion_inicial`, `ext_llegada` (possibly capacity-refused with the
`_cap_llena` suffix) or `ext_salida`. -/
theorem plan_vacio_solo_inicial_y_ruido (cfg : ConfigSimulacion)
    (capacidad ocup_propuesta : ℤ) (d : SorteosRuido) (iteraciones : ℕ) :
    registros_de_run [] = [] ∧
    ∀ e ∈ eventos_run_plan_vacio cfg capacidad ocup_propuesta d iteraciones,
      e.2.evento = "ocupacion_inicial" ∨ e.2.evento = "ext_llegada" ∨
      e.2.evento = "ext_llegada" ++ "_cap_llena" ∨ e.2.evento = "ext_salida" ∨
      e.2.evento = "ext_salida" ++ "_cap_llena" := by
  refine ⟨rfl, ?_⟩
  intro e he
  unfold eventos_run_plan_vacio at he
  simp only [List.mem_append] at he
  rcases he with he | he
  · split at he
    · simp only [List.mem_singleton] at he
      subst he
      exact Or.inl rfl
    · simp at he
  · rcases proceso_ruido_nombres cfg _ capacidad d iteraciones 0 _ 0 e he
      with h | h | h | h
    · exact Or.inr (Or.inl h)
    · exact Or.inr (Or.inr (Or.inl h))
    · exact Or.inr (Or.inr (Or.inr (Or.inl h)))
    · exact Or.inr (Or.inr (Or.inr (Or.inr h)))

/-- Concrete instantiation of `plan_vacio_solo_inicial_y_ruido` at the
initial event of the single-airport run. -/
theorem plan_vacio_solo_inicial_y_ruido_witness :
    registros_de_run [] = [] ∧
    (((0:ℚ), (⟨1, "ocupacion_inicial"⟩ : ResultadoLog)).2.evento = "ocupacion_inicial" ∨
      ((0:ℚ), (⟨1, "ocupacion_inicial"⟩ : ResultadoLog)).2.evento = "ext_llegada" ∨
      ((0:ℚ), (⟨1, "ocupacion_inicial"⟩ : ResultadoLog)).2.evento =
        "ext_llegada" ++ "_cap_llena" ∨
      ((0:ℚ), (⟨1, "ocupacion_inicial"⟩ : ResultadoLog)).2.evento = "ext_salida" ∨
      ((0:ℚ), (⟨1, "ocupacion_inicial"⟩ : ResultadoLog)).2.evento =
        "ext_salida" ++ "_cap_llena") := by
  have h := plan_vacio_solo_inicial_y_ruido config_base 5 1
    ⟨fun _ => 0, fun _ => 0, fun _ => 0⟩ 1
  refine ⟨h.1, h.2 ((0:ℚ), (⟨1, "ocupacion_inicial"⟩ : ResultadoLog)) ?_⟩
  unfold eventos_run_plan_vacio
  norm_num [inicializar_ocupacion]

end Prototipo2
